import Mathlib

/-!
A verification development for the Squirrel subdomain liveness checker.

The Go sources are shallowly embedded: pure functions become Lean
functions over `Int`/`Nat`/`String`/`List Char`; the HTTP transport, the
wall clock, the filesystem and the headless browser are abstracted as
oracle parameters; the screenshot worker pool is modelled as an explicit
state-transition system.  Response bodies are modelled as `List Char`
(Go strings are byte sequences; the claims only exercise character-level
substring search).
-/

namespace Squirrel

/-! ## String helpers (shallow embedding of `strings.Contains` etc.) -/

/-- Embedding of Go `strings.Contains`: `subFound pat s` is true iff `pat`
occurs as a contiguous run inside `s`. -/
def subFound (pat : List Char) : List Char → Bool
  | [] => pat.isPrefixOf []
  | c :: rest => pat.isPrefixOf (c :: rest) || subFound pat rest

/-- Embedding of Go `strings.ToLower` (the keyword lists in this program are
ASCII or Chinese, for which per-character lowering agrees with Go). -/
def toLowerList (l : List Char) : List Char := l.map Char.toLower

/-- Embedding of `containsAny` from `checker/checker.go`: true when the content
contains any of the given literal patterns (`strings.Contains`). -/
def containsAny (content : List Char) (patterns : List String) : Bool :=
  patterns.any (fun p => subFound p.data content)

/-- Embedding of Go `strings.TrimSpace` on character lists: drop whitespace
from both ends. -/
def trimChars (l : List Char) : List Char :=
  ((l.dropWhile Char.isWhitespace).reverse.dropWhile Char.isWhitespace).reverse

/-- Embedding of Go `strings.TrimSpace` on strings. -/
def trimSpace (s : String) : String := String.mk (trimChars s.data)

/-- Embedding of Go `strings.HasPrefix` (character-level, so that concrete
instances evaluate). -/
def startsWithStr (s pat : String) : Bool := pat.data.isPrefixOf s.data

/-! ## Status classification (`getStatusTextAndAlive`, checker/checker.go) -/

/-- Embedding of `getStatusTextAndAlive` from `checker/checker.go`: maps an
HTTP status code to the status text and the alive flag, by the same
`switch` cascade as the source. -/
def getStatusTextAndAlive (statusCode : Int) : String × Bool :=
  if statusCode = 200 then ("存活", true)
  else if statusCode = 301 ∨ statusCode = 302 then ("重定向", true)
  else if statusCode = 403 then ("禁止访问", false)
  else if statusCode = 404 then ("未找到", false)
  else if statusCode = 500 then ("服务器错误", false)
  else if statusCode = 502 then ("网关错误", false)
  else if statusCode = 503 then ("服务不可用", false)
  else if statusCode < 400 then ("存活", true)
  else ("无法访问", false)

/-- The classification enumeration of spec §3 / §4.1. -/
inductive Classification where
  | Alive | Redirect | Forbidden | NotFound
  | ServerError | GatewayError | Unavailable | Unreachable
  deriving DecidableEq

/-- Spec-side definition (from the words of §4.1): the status-to-classification
mapping. -/
def classifySpec (c : Int) : Classification :=
  if c = 200 then .Alive
  else if c = 301 then .Redirect
  else if c = 302 then .Redirect
  else if c = 403 then .Forbidden
  else if c = 404 then .NotFound
  else if c = 500 then .ServerError
  else if c = 502 then .GatewayError
  else if c = 503 then .Unavailable
  else if c < 400 then .Alive
  else .Unreachable

/-- Spec-side definition: `isAlive` is true iff the classification is
`Alive` or `Redirect` (spec §3). -/
def isAliveSpec (c : Int) : Bool :=
  match classifySpec c with
  | .Alive => true
  | .Redirect => true
  | _ => false

/-- The status text the source renders for each classification (the source
returns these Chinese strings in the same order §4.1 lists the cases). -/
def statusTextOf : Classification → String
  | .Alive => "存活"
  | .Redirect => "重定向"
  | .Forbidden => "禁止访问"
  | .NotFound => "未找到"
  | .ServerError => "服务器错误"
  | .GatewayError => "网关错误"
  | .Unavailable => "服务不可用"
  | .Unreachable => "无法访问"

end Squirrel

namespace Squirrel

/-! ## Page Analyzer (`detectPageType`, `extractTitle`, checker/checker.go) -/

/-- Page-type record from `checker/checker.go` (`PageType`; the Go field
`Type` is rendered `ptype` because `Type` is reserved in Lean). -/
structure PageType where
  ptype : String
  description : String
  deriving DecidableEq

/-- The login-page keyword list from `detectPageType` (the patterns are
matched with `strings.Contains`, so the regex-looking entries are literal). -/
def loginKeywords : List String :=
  ["<form.*login", "login.*<form", "sign in", "signin",
   "username.*password", "userid.*password", "用户名.*密码",
   "登录", "登陆", "login_form", "input.*password"]

/-- The admin-panel keyword list from `detectPageType`. -/
def adminKeywords : List String :=
  ["admin", "manage", "dashboard", "console",
   "control panel", "cpanel", "后台管理", "管理系统", "系统管理"]

/-- The API keyword list from `detectPageType`. -/
def apiKeywords : List String :=
  ["api", "swagger", "graphql", "endpoint", "json"]

/-- The upload keyword list from `detectPageType`. -/
def uploadKeywords : List String :=
  ["upload", "file", "browse", "上传", "文件",
   "<input.*type=\"file\"", "multipart/form-data"]

/-- The JSON-object token `{"` checked by `detectPageType` on the raw body. -/
def jsonObjTok : List Char := "\x7b\"".data

/-- The JSON-array token `[{"` checked by `detectPageType` on the raw body. -/
def jsonArrTok : List Char := "[\x7b\"".data

/-- The login-page record returned by `detectPageType`. -/
def loginPage : PageType := ⟨"登录页面", "可能含有用户名和密码输入框"⟩

/-- The admin-panel record returned by `detectPageType`. -/
def adminPage : PageType := ⟨"管理后台", "可能是系统管理界面"⟩

/-- The API record returned by `detectPageType`. -/
def apiPage : PageType := ⟨"API接口", "可能是API接口或文档"⟩

/-- The upload record returned by `detectPageType`. -/
def uploadPage : PageType := ⟨"上传页面", "含有文件上传功能"⟩

/-- Embedding of `detectPageType` from `checker/checker.go`: first-match
priority cascade over the keyword lists (keywords against the lowercased
body, the JSON tokens against the raw body). -/
def detectPageType (content : List Char) : Option PageType :=
  let lowerContent := toLowerList content
  if containsAny lowerContent loginKeywords then some loginPage
  else if containsAny lowerContent adminKeywords then some adminPage
  else if containsAny lowerContent apiKeywords || subFound jsonObjTok content
          || subFound jsonArrTok content then some apiPage
  else if containsAny lowerContent uploadKeywords then some uploadPage
  else none

/-- First category in a priority list whose predicate matches the body. -/
def firstMatch : List (PageType × (List Char → Bool)) → List Char → Option PageType
  | [], _ => none
  | (p, f) :: rest, content =>
      if f content then some p else firstMatch rest content

/-- Spec-side definition (claim C8 as stated): the priority list with the API
category triggered by keywords or a body STARTING with a JSON token. -/
def claimCategoriesStrict : List (PageType × (List Char → Bool)) :=
  [(loginPage, fun c => containsAny (toLowerList c) loginKeywords),
   (adminPage, fun c => containsAny (toLowerList c) adminKeywords),
   (apiPage, fun c => containsAny (toLowerList c) apiKeywords
       || jsonObjTok.isPrefixOf c || jsonArrTok.isPrefixOf c),
   (uploadPage, fun c => containsAny (toLowerList c) uploadKeywords)]

/-- Spec-side definition (claim C8 amended): as `claimCategoriesStrict`, but
the JSON token may occur ANYWHERE in the body, matching the source. -/
def claimCategoriesAmended : List (PageType × (List Char → Bool)) :=
  [(loginPage, fun c => containsAny (toLowerList c) loginKeywords),
   (adminPage, fun c => containsAny (toLowerList c) adminKeywords),
   (apiPage, fun c => containsAny (toLowerList c) apiKeywords
       || subFound jsonObjTok c || subFound jsonArrTok c),
   (uploadPage, fun c => containsAny (toLowerList c) uploadKeywords)]

/-- Claim C8 exactly as stated: priority classification with the
starting-with-JSON-token reading. -/
def claimDetectStrict (content : List Char) : Option PageType :=
  firstMatch claimCategoriesStrict content

/-- Claim C8 amended: priority classification with the
containing-a-JSON-token reading. -/
def claimDetectAmended (content : List Char) : Option PageType :=
  firstMatch claimCategoriesAmended content

/-- A body that contains a JSON-object token in mid-string but matches no
keyword: the code classifies it API, the claim as stated classifies it None. -/
def jsonMidBody : List Char := "xyz\x7b\"a\":1\x7d".data

/-! ## Title extraction (`extractTitle`, checker/checker.go) -/

/-- The literal head of the title regex `<title[^>]*>(.*?)</title>`. -/
def titleOpenTag : List Char := "<title".data

/-- The closing literal of the title regex. -/
def titleCloseTag : List Char := "</title>".data

/-- The non-greedy capture `(.*?)</title>` of the title regex: the shortest
run of non-newline characters followed by `</title>` (Go RE2 `.` does not
match a newline). -/
def lazyCapture : List Char → Option (List Char)
  | [] => none
  | c :: rest =>
    if titleCloseTag.isPrefixOf (c :: rest) then some []
    else if c = '\n' then none
    else (lazyCapture rest).map (fun t => c :: t)

/-- Matching the title regex at one start position: literal `<title`, then
`[^>]*` up to the first `>`, then the lazy capture. -/
def matchTitleAt (s : List Char) : Option (List Char) :=
  if titleOpenTag.isPrefixOf s then
    match (s.drop 6).dropWhile (fun c => c != '>') with
    | [] => none
    | _ :: afterGt => lazyCapture afterGt
  else none

/-- Leftmost match of the title regex (`FindStringSubmatch` takes the
leftmost match position). -/
def findTitle : List Char → Option (List Char)
  | [] => none
  | c :: rest =>
    match matchTitleAt (c :: rest) with
    | some t => some t
    | none => findTitle rest

/-- Embedding of `extractTitle` from `checker/checker.go`: the trimmed first
capture of `<title[^>]*>(.*?)</title>`, or the empty string. -/
def extractTitle (content : List Char) : String :=
  match findTitle content with
  | some t => String.mk (trimChars t)
  | none => ""

/-- Spec-side capture (claim C9 as stated): the text content of a title
element, with no restriction on newlines. -/
def specCapture : List Char → Option (List Char)
  | [] => none
  | c :: rest =>
    if titleCloseTag.isPrefixOf (c :: rest) then some []
    else (specCapture rest).map (fun t => c :: t)

/-- Spec-side match of a title element at one start position. -/
def specMatchTitleAt (s : List Char) : Option (List Char) :=
  if titleOpenTag.isPrefixOf s then
    match (s.drop 6).dropWhile (fun c => c != '>') with
    | [] => none
    | _ :: afterGt => specCapture afterGt
  else none

/-- Spec-side leftmost title element. -/
def specFindTitle : List Char → Option (List Char)
  | [] => none
  | c :: rest =>
    match specMatchTitleAt (c :: rest) with
    | some t => some t
    | none => specFindTitle rest

/-- Spec-side title (claim C9 as stated): the trimmed text content of the
first title element, or empty. -/
def specTitleText (content : List Char) : String :=
  match specFindTitle content with
  | some t => String.mk (trimChars t)
  | none => ""

/-- A body whose only title element spans a newline. -/
def newlineTitleBody : List Char := "<title>a\nb</title>".data

/-! ## Probe (`CheckDomain` / `checkSingleDomain`, checker/checker.go)

The HTTP transport, the wall clock, Go `http.StatusText`, `os.MkdirAll` and
the timestamped filename generator are abstracted as oracles in `ProbeEnv`;
everything else follows the source line by line.  `CheckDomain` returns the
list of results sent to `resultChan`, in order. -/

/-- Configuration record from `config/config.go` (`Config`). -/
structure Config where
  Timeout : Nat
  Concurrency : Nat
  Verbose : Bool
  FollowRedirects : Bool
  ShowResponseTime : Bool
  OutputFile : String
  ExcelFile : String
  ExtractInfo : Bool
  OnlyAlive : Bool
  Screenshot : Bool
  ScreenshotAlive : Bool
  ScreenshotDir : String

/-- Outcome of one `client.Get`: either a response (status and body) or a
transport error with its error text. -/
inductive NetOutcome where
  | success (status : Int) (body : List Char)
  | failure (errText : String)
  deriving DecidableEq

/-- The oracles a probe runs against: the network, the wall clock,
`http.StatusText`, `os.MkdirAll` success, `generateScreenshotFilename`
(timestamped, hence an oracle), and whether a screenshot pool was passed. -/
structure ProbeEnv where
  net : String → NetOutcome
  elapsed : String → Nat
  reasonPhrase : Int → String
  mkdirOk : Bool
  genFilename : String → String
  poolPresent : Bool

/-- Probe result record from `checker/checker.go` (`Result`). -/
structure Result where
  Domain : String
  Status : Int
  Alive : Bool
  StatusText : String
  Message : String
  ResponseTime : Nat
  PageInfo : Option PageType
  Title : String
  Screenshot : String
  deriving DecidableEq

/-- Embedding of Go `filepath.Join` for the two-component uses here. -/
def joinPath (dir file : String) : String := dir ++ "/" ++ file

/-- The result constructed when a `client.Get` returned a response: status
text and alive flag from the code, reason phrase as message, optional page
info/title when extraction is on and status < 400, and the pre-assigned
screenshot path when a screenshot is requested (both `CheckDomain`'s HTTPS
branch and `checkSingleDomain` build this identically). -/
def buildSuccessResult (target : String) (st : Int) (body : List Char)
    (cfg : Config) (env : ProbeEnv) : Result :=
  let sa := getStatusTextAndAlive st
  { Domain := target
    Status := st
    Alive := sa.2
    StatusText := sa.1
    Message := env.reasonPhrase st
    ResponseTime := env.elapsed target
    PageInfo := if cfg.ExtractInfo && decide (st < 400) then detectPageType body else none
    Title := if cfg.ExtractInfo && decide (st < 400) then extractTitle body else ""
    Screenshot :=
      if (cfg.Screenshot || (cfg.ScreenshotAlive && sa.2)) && env.poolPresent && env.mkdirOk
      then joinPath cfg.ScreenshotDir (env.genFilename target) else "" }

/-- Embedding of `checkSingleDomain` from `checker/checker.go`: one request
against a scheme-qualified target; on transport error the result is
`无法访问` with the error text (and a screenshot is still pre-assigned when
the all-pages screenshot mode is on). -/
def checkSingleDomain (target : String) (cfg : Config) (env : ProbeEnv) : Result :=
  match env.net target with
  | .failure e =>
      { Domain := target
        Status := 0
        Alive := false
        StatusText := "无法访问"
        Message := e
        ResponseTime := env.elapsed target
        PageInfo := none
        Title := ""
        Screenshot :=
          if cfg.Screenshot && env.poolPresent && env.mkdirOk
          then joinPath cfg.ScreenshotDir (env.genFilename target) else "" }
  | .success st body => buildSuccessResult target st body cfg env

/-- Embedding of `CheckDomain` from `checker/checker.go`, as the list of
results sent to `resultChan`.  A scheme-qualified domain goes straight to
`checkSingleDomain`.  Otherwise HTTPS is attempted first: if the transport
completes, that result is emitted and the function returns; if it fails, the
transient HTTPS result is never emitted (the source only uses it to submit an
optional screenshot task) and `checkSingleDomain` runs once against the
`http://` target. -/
def CheckDomain (domain : String) (cfg : Config) (env : ProbeEnv) : List Result :=
  if startsWithStr domain "http://" || startsWithStr domain "https://" then
    [checkSingleDomain domain cfg env]
  else
    match env.net ("https://" ++ domain) with
    | .success st body => [buildSuccessResult ("https://" ++ domain) st body cfg env]
    | .failure _ => [checkSingleDomain ("http://" ++ domain) cfg env]

/-! ## Input normalisation and the sequential pipeline model (`main`) -/

/-- Model of Go `url.Parse(d).Host` for a scheme-qualified `d`: the text
after the scheme up to the first `/`, `?` or `#` (Go net/url is external
standard library; this covers the host+port shapes this program feeds it). -/
def dropSchemeHost (d : String) : String :=
  let rest :=
    if startsWithStr d "http://" then d.data.drop 7
    else if startsWithStr d "https://" then d.data.drop 8
    else d.data
  String.mk (rest.takeWhile (fun c => c != '/' && c != '?' && c != '#'))

/-- The normalisation key of `main`'s deduplication loop: a scheme-qualified
entry is replaced by its parsed host (falling back to the raw entry when the
host is empty); anything else keys as itself. -/
def normKey (d : String) : String :=
  if startsWithStr d "http://" || startsWithStr d "https://" then
    let h := dropSchemeHost d
    if h = "" then d else h
  else d

/-- The deduplication loop of `main`: walk the input in order, trim each
entry, normalise it, and keep the first occurrence of each key (`domainMap`
plus `uniqueDomains` in the source). -/
def dedupeKeys : List String → List String → List String
  | _, [] => []
  | seen, d :: rest =>
      let k := normKey (trimSpace d)
      if k ∈ seen then dedupeKeys seen rest
      else k :: dedupeKeys (k :: seen) rest

/-- `main`'s normalised, deduplicated domain list. -/
def normalizeAndDedupe (domains : List String) : List String := dedupeKeys [] domains

/-- Sequential model of the dispatcher pipeline: every domain surviving
deduplication is probed exactly once by `CheckDomain`, and the aggregator
appends every emitted result (ordering across domains is irrelevant to the
counting claims; the model uses input order). -/
def runPipeline (domains : List String) (cfg : Config) (env : ProbeEnv) : List Result :=
  (normalizeAndDedupe domains).flatMap (fun d => CheckDomain d cfg env)

/-- Embedding of `readDomainsFromFile` from `checker/checker.go` (and
`utils.ReadDomainsFromFile`), applied to the scanned lines of the file: each
line is trimmed; lines empty after trimming or starting with `#` are
skipped. -/
def readDomainsFromLines (lines : List String) : List String :=
  lines.filterMap (fun l =>
    if trimSpace l != "" && !(startsWithStr (trimSpace l) "#") then some (trimSpace l)
    else none)

/-- The pipeline run on a domain-list file given as its scanned lines. -/
def runFromFile (lines : List String) (cfg : Config) (env : ProbeEnv) : List Result :=
  runPipeline (readDomainsFromLines lines) cfg env

/-! ## Screenshot Engine pool (screenshot/screenshot.go)

The pool is modelled as a state-transition system.  Reply channels (the
one-shot `make(chan string, 1)` created per `Submit`) are numbered in
creation order; `replyWrites i` records every value ever sent into channel
`i`.  `queue` and `inFlight` hold the channel numbers of buffered and
worker-held tasks.  `Submit`'s one-second bounded wait on a full queue is
modelled by its snapshot at the decision point: the send succeeds iff the
buffered queue has a free slot, otherwise the timeout branch fires. -/

structure PoolState where
  capacity : Nat
  queue : List Nat
  inFlight : List Nat
  closed : Bool
  closeCount : Nat
  replyWrites : Nat → List String
  nextReply : Nat

/-- Embedding of `NewScreenshotPool`: buffered task channel of size
`workers * 2`, open, nothing queued, no reply channels yet. -/
def NewScreenshotPool (workers : Nat) : PoolState :=
  { capacity := workers * 2
    queue := []
    inFlight := []
    closed := false
    closeCount := 0
    replyWrites := fun _ => []
    nextReply := 0 }

/-- Embedding of `Submit` from `screenshot/screenshot.go`: create the
one-shot reply channel; if the pool is closed, write `""` and return the
already-resolved channel; otherwise try to enqueue, and on the bounded-wait
timeout (queue full) write `""` instead.  Returns the new state and the
reply-channel number. -/
def submitStep (s : PoolState) : PoolState × Nat :=
  let id := s.nextReply
  if s.closed then
    ({ s with
        replyWrites := Function.update s.replyWrites id (s.replyWrites id ++ [""])
        nextReply := id + 1 }, id)
  else if s.queue.length < s.capacity then
    ({ s with queue := s.queue ++ [id], nextReply := id + 1 }, id)
  else
    ({ s with
        replyWrites := Function.update s.replyWrites id (s.replyWrites id ++ [""])
        nextReply := id + 1 }, id)

/-- A worker receiving from the task channel (`for task := range p.tasks`). -/
def takeStep (s : PoolState) : PoolState :=
  match s.queue with
  | [] => s
  | i :: rest => { s with queue := rest, inFlight := s.inFlight ++ [i] }

/-- A worker finishing a held task: it sends exactly one value (a path or
`""`) into the task's reply channel (`task.Result <- ...` in `Start`). -/
def finishStep (s : PoolState) (i : Nat) (v : String) : PoolState :=
  if i ∈ s.inFlight then
    { s with
        inFlight := s.inFlight.erase i
        replyWrites := Function.update s.replyWrites i (s.replyWrites i ++ [v]) }
  else s

/-- Embedding of `Stop` from `screenshot/screenshot.go`: under the mutex, the
task channel is closed only if the pool is not already flagged closed;
`closeCount` counts actual `close(p.tasks)` executions (a second close would
panic in Go). -/
def stopStep (s : PoolState) : PoolState :=
  if s.closed then s else { s with closed := true, closeCount := s.closeCount + 1 }

/-- The pool's external events. -/
inductive PEvent where
  | submit
  | take
  | finish (i : Nat) (v : String)
  | stop

/-- One transition of the pool. -/
def stepEv (s : PoolState) (e : PEvent) : PoolState :=
  match e with
  | .submit => (submitStep s).1
  | .take => takeStep s
  | .finish i v => finishStep s i v
  | .stop => stopStep s

/-- The pool state after an event trace, from a fresh pool. -/
def runEvents (workers : Nat) (evs : List PEvent) : PoolState :=
  evs.foldl stepEv (NewScreenshotPool workers)

/-- Number of values ever written into reply channel `i`. -/
def writes (s : PoolState) (i : Nat) : Nat := (s.replyWrites i).length

/-- Number of live task records still holding reply channel `i`. -/
def pending (s : PoolState) (i : Nat) : Nat :=
  s.queue.count i + s.inFlight.count i

/-- The pool invariant: every queued or held task refers to an allocated
reply channel; every allocated reply channel is either resolved with exactly
one value or held by exactly one live task; unallocated channels are empty
and unreferenced. -/
def PoolInv (s : PoolState) : Prop :=
  (∀ i ∈ s.queue, i < s.nextReply)
  ∧ (∀ i ∈ s.inFlight, i < s.nextReply)
  ∧ (∀ i, i < s.nextReply → writes s i + pending s i = 1)
  ∧ (∀ i, s.nextReply ≤ i → s.replyWrites i = [])

/-- The worker steps that run between `Stop`'s `close(p.tasks)` and the
return of `wg.Wait()`: draining the buffered queue and finishing held
tasks. -/
inductive WStep : PoolState → PoolState → Prop where
  | take (s : PoolState) (h : s.queue ≠ []) : WStep s (takeStep s)
  | finish (s : PoolState) (i : Nat) (v : String) (h : i ∈ s.inFlight) :
      WStep s (finishStep s i v)

/-- Termination measure for the worker drain. -/
def wMeasure (s : PoolState) : Nat := 2 * s.queue.length + s.inFlight.length

/-! ## Screenshot worker retries (`Start` / `TakeScreenshotIndependent`) -/

/-- Retry bound of the worker loop in `Start` (`maxRetries := 3`). -/
def maxRetries : Nat := 3

/-- Backoff before retry number `retry`
(`time.Duration(retry*500) * time.Millisecond`), in milliseconds. -/
def backoffMs (retry : Nat) : Nat := retry * 500

/-- The four recognised network-level error markers (`Start` and
`TakeScreenshotIndependent` test them with `strings.Contains`). -/
def netErrPatterns : List String :=
  ["net::ERR_INVALID_RESPONSE", "net::ERR_CONNECTION_REFUSED",
   "net::ERR_NAME_NOT_RESOLVED", "net::ERR_TIMED_OUT"]

/-- Whether an error text contains a recognised network-level marker. -/
def isNetworkErr (e : List Char) : Bool :=
  netErrPatterns.any (fun p => subFound p.data e)

/-- What a completed render attempt produced on disk. -/
inductive ShotArtifact where
  | pageShot
  | partialShot
  | netErrorImage
  deriving DecidableEq

/-- Embedding of `TakeScreenshotIndependent` from `screenshot/screenshot.go`
as a function of the `chromedp.Run` outcome (`runErr`) and whether the
capture buffer is non-empty; the file writes themselves are assumed to
succeed (filesystem is external).  A recognised network error yields a saved
partial page or a generated network-error placeholder image and returns
success; an unrecognised error is wrapped and propagated; an empty buffer
with no error is the `截图数据为空` failure. -/
def takeScreenshotIndependent (runErr : Option (List Char)) (bufNonempty : Bool) :
    Except (List Char) ShotArtifact :=
  match runErr with
  | some e =>
      if isNetworkErr e then
        if bufNonempty then .ok .partialShot else .ok .netErrorImage
      else .error ("截图失败: ".data ++ e)
  | none =>
      if bufNonempty then .ok .pageShot else .error "截图数据为空".data

/-- Per-attempt oracle: the `chromedp.Run` error and buffer state of attempt
number `r` (0 = first attempt). -/
structure AttemptEnv where
  runErr : Nat → Option (List Char)
  bufNonempty : Nat → Bool

/-- The outcome of attempt number `r`. -/
def attemptResult (env : AttemptEnv) (r : Nat) : Except (List Char) ShotArtifact :=
  takeScreenshotIndependent (env.runErr r) (env.bufNonempty r)

/-- The worker retry loop of `Start` (lines 94–143): attempt at retry number
`r` with `left` retries remaining; on success reply with the screenshot path;
on the final failure reply with the path if the error is a recognised network
error, else with `""`; otherwise sleep `backoffMs (r+1)` and retry.  Returns
(reply value, success flag, backoff waits performed). -/
def retryLoop (env : AttemptEnv) (path : List Char) :
    Nat → Nat → List Char × Bool × List Nat
  | r, 0 =>
      match attemptResult env r with
      | .ok _ => (path, true, [])
      | .error e => if isNetworkErr e then (path, true, []) else ([], false, [])
  | r, left + 1 =>
      match attemptResult env r with
      | .ok _ => (path, true, [])
      | .error _ =>
          let nxt := retryLoop env path (r + 1) left
          (nxt.1, nxt.2.1, backoffMs (r + 1) :: nxt.2.2)

/-- One task processed by a worker: the retry loop started at retry 0 with
`maxRetries` retries remaining. -/
def runTask (env : AttemptEnv) (path : List Char) : List Char × Bool × List Nat :=
  retryLoop env path 0 maxRetries

/-! ## Concrete instances used by the witness theorems -/

/-- A concrete configuration (the flag defaults of `config.ParseFlags`). -/
def cfgW : Config :=
  { Timeout := 10, Concurrency := 10, Verbose := false, FollowRedirects := false
    ShowResponseTime := false, OutputFile := "", ExcelFile := "", ExtractInfo := false
    OnlyAlive := false, Screenshot := false, ScreenshotAlive := false
    ScreenshotDir := "screenshots" }

/-- A concrete probe environment in which `https://example.com` refuses the
connection and every other URL answers 200. -/
def envFail : ProbeEnv :=
  { net := fun u =>
      if u = "https://example.com" then .failure "connection refused"
      else .success 200 []
    elapsed := fun _ => 5
    reasonPhrase := fun _ => "OK"
    mkdirOk := true
    genFilename := fun _ => "shot.png"
    poolPresent := false }

/-- A concrete attempt oracle that always fails with a recognised network
error and an empty buffer. -/
def envSoft : AttemptEnv :=
  { runErr := fun _ => some "net::ERR_TIMED_OUT".data, bufNonempty := fun _ => false }

/-- A concrete attempt oracle that always fails with an unrecognised error. -/
def envHard : AttemptEnv :=
  { runErr := fun _ => some "chrome crashed".data, bufNonempty := fun _ => false }

/-- A concrete pool state with one queued task: a fresh one-worker pool after
one submission. -/
def poolOneQueued : PoolState := (submitStep (NewScreenshotPool 1)).1

end Squirrel

namespace Squirrel

/-- C1: For every HTTP status code, `getStatusTextAndAlive` realises exactly
the §4.1 mapping: 200 ↦ Alive/true; 301, 302 ↦ Redirect/true; 403, 404, 500,
502, 503 ↦ Forbidden, NotFound, ServerError, GatewayError, Unavailable, each
with alive = false; any other code below 400 ↦ Alive/true; any other code
400 or above ↦ Unreachable/false.  Consequently, outside the eight listed
codes, the alive flag holds iff the code is below 400. -/
theorem getStatusTextAndAlive_matches_spec (c : Int) :
    getStatusTextAndAlive c = (statusTextOf (classifySpec c), isAliveSpec c)
    ∧ (¬(c = 200 ∨ c = 301 ∨ c = 302 ∨ c = 403 ∨ c = 404 ∨ c = 500 ∨
          c = 502 ∨ c = 503) →
        ((getStatusTextAndAlive c).2 = true ↔ c < 400)) := by
  constructor
  · by_cases h1 : c = 200
    · subst h1; rfl
    by_cases h2 : c = 301
    · subst h2; rfl
    by_cases h3 : c = 302
    · subst h3; rfl
    by_cases h4 : c = 403
    · subst h4; rfl
    by_cases h5 : c = 404
    · subst h5; rfl
    by_cases h6 : c = 500
    · subst h6; rfl
    by_cases h7 : c = 502
    · subst h7; rfl
    by_cases h8 : c = 503
    · subst h8; rfl
    have h23 : ¬(c = 301 ∨ c = 302) := by tauto
    by_cases h9 : c < 400
    · simp only [getStatusTextAndAlive, classifySpec, isAliveSpec, if_neg h1,
        if_neg h23, if_neg h2, if_neg h3, if_neg h4, if_neg h5, if_neg h6,
        if_neg h7, if_neg h8, if_pos h9]
      rfl
    · simp only [getStatusTextAndAlive, classifySpec, isAliveSpec, if_neg h1,
        if_neg h23, if_neg h2, if_neg h3, if_neg h4, if_neg h5, if_neg h6,
        if_neg h7, if_neg h8, if_neg h9]
      rfl
  · intro h
    push_neg at h
    obtain ⟨h1, h2, h3, h4, h5, h6, h7, h8⟩ := h
    have h23 : ¬(c = 301 ∨ c = 302) := by tauto
    by_cases h9 : c < 400
    · simp only [getStatusTextAndAlive, if_neg h1, if_neg h23, if_neg h4,
        if_neg h5, if_neg h6, if_neg h7, if_neg h8, if_pos h9]
      simpa using h9
    · simp only [getStatusTextAndAlive, if_neg h1, if_neg h23, if_neg h4,
        if_neg h5, if_neg h6, if_neg h7, if_neg h8, if_neg h9]
      simpa using h9

/-- Witness for C1: the theorem applied at the concrete code 204 (a code
outside the eight listed ones). -/
theorem getStatusTextAndAlive_matches_spec_witness :
    getStatusTextAndAlive 204 = (statusTextOf (classifySpec 204), isAliveSpec 204)
    ∧ ((getStatusTextAndAlive 204).2 = true ↔ (204 : Int) < 400) := by
  have h := getStatusTextAndAlive_matches_spec 204
  exact ⟨h.1, h.2 (by decide)⟩

/-- C8 counterexample: a body that contains the JSON-object token `{"` in the
middle but matches no keyword and does not start with a JSON token.  The code
classifies it API while the claim as stated (body STARTING with a JSON token)
classifies it None. -/
theorem detectPageType_claim_counterexample :
    detectPageType jsonMidBody = some apiPage
    ∧ claimDetectStrict jsonMidBody = none
    ∧ some apiPage ≠ (none : Option PageType) := by decide

/-- C8 (amended): the page category is the first match in priority order
Login > Admin > API > Upload > None, by case-insensitive substring search
over the fixed keyword lists, with the API category also triggered by a
JSON-object/array token occurring ANYWHERE in the raw body (not only at its
start); in particular a body matching login keywords — even one also matching
admin keywords — is classified Login. -/
theorem detectPageType_first_match_priority (content : List Char) :
    detectPageType content = claimDetectAmended content
    ∧ (containsAny (toLowerList content) loginKeywords = true →
        detectPageType content = some loginPage) := by
  constructor
  · by_cases hl : containsAny (toLowerList content) loginKeywords
    · simp [detectPageType, claimDetectAmended, claimCategoriesAmended,
        firstMatch, hl]
    by_cases ha : containsAny (toLowerList content) adminKeywords
    · simp [detectPageType, claimDetectAmended, claimCategoriesAmended,
        firstMatch, hl, ha]
    by_cases hj : (containsAny (toLowerList content) apiKeywords
        || subFound jsonObjTok content || subFound jsonArrTok content) = true
    · simp [detectPageType, claimDetectAmended, claimCategoriesAmended,
        firstMatch, hl, ha, hj]
    by_cases hu : containsAny (toLowerList content) uploadKeywords
    · simp [detectPageType, claimDetectAmended, claimCategoriesAmended,
        firstMatch, hl, ha, hj, hu]
    · simp [detectPageType, claimDetectAmended, claimCategoriesAmended,
        firstMatch, hl, ha, hj, hu]
  · intro h
    simp [detectPageType, h]

/-- Witness for C8: the amended theorem applied at a body matching both login
and admin keywords; it is classified Login. -/
theorem detectPageType_first_match_priority_witness :
    detectPageType "signin admin".data = claimDetectAmended "signin admin".data
    ∧ detectPageType "signin admin".data = some loginPage := by
  have h := detectPageType_first_match_priority "signin admin".data
  exact ⟨h.1, h.2 (by decide)⟩

end Squirrel

namespace Squirrel

/-! ## C9: title extraction lemmas -/

theorem titleOpen_not_prefix_of_ne {c : Char} (hc : c ≠ '<') (rest : List Char) :
    ¬ titleOpenTag <+: (c :: rest) := by
  rintro ⟨s, hs⟩
  have h2 : '<' :: ("title".data ++ s) = c :: rest := hs
  injection h2 with h3 h4
  exact hc h3.symm

theorem titleClose_not_prefix_of_ne {c : Char} (hc : c ≠ '<') (rest : List Char) :
    ¬ titleCloseTag <+: (c :: rest) := by
  rintro ⟨s, hs⟩
  have h2 : '<' :: ("/title>".data ++ s) = c :: rest := hs
  injection h2 with h3 h4
  exact hc h3.symm

theorem matchTitleAt_none_of_ne {c : Char} (hc : c ≠ '<') (rest : List Char) :
    matchTitleAt (c :: rest) = none := by
  simp [matchTitleAt, titleOpen_not_prefix_of_ne hc rest]

theorem findTitle_append_clean (pre l : List Char) (h : ∀ c ∈ pre, c ≠ '<') :
    findTitle (pre ++ l) = findTitle l := by
  induction pre with
  | nil => rfl
  | cons c pre' ih =>
      have hc : c ≠ '<' := h c (List.mem_cons_self c pre')
      have h' : ∀ x ∈ pre', x ≠ '<' := fun x hx => h x (List.mem_cons_of_mem c hx)
      simp [findTitle, matchTitleAt_none_of_ne hc, ih h']

theorem lazyCapture_clean (t post : List Char)
    (h : ∀ c ∈ t, c ≠ '<' ∧ c ≠ '\n') :
    lazyCapture (t ++ (titleCloseTag ++ post)) = some t := by
  induction t with
  | nil =>
      show lazyCapture ('<' :: ("/title>".data ++ post)) = some []
      simp [lazyCapture]
      exact ⟨post, rfl⟩
  | cons c t' ih =>
      have hc := h c (List.mem_cons_self c t')
      have h' : ∀ x ∈ t', x ≠ '<' ∧ x ≠ '\n' := fun x hx => h x (List.mem_cons_of_mem c hx)
      simp [lazyCapture, titleClose_not_prefix_of_ne hc.1, hc.2, ih h']

theorem matchTitleAt_open (y : List Char) :
    matchTitleAt ("<title>".data ++ y) = lazyCapture y := by
  have hdrop : (("<title>".data ++ y).drop 6).dropWhile (fun c => c != '>')
      = '>' :: y := rfl
  simp [matchTitleAt, hdrop]
  intro hcon
  exact absurd ⟨'>' :: y, rfl⟩ hcon

theorem findTitle_cons_some (c : Char) (rest tl : List Char)
    (h : matchTitleAt (c :: rest) = some tl) : findTitle (c :: rest) = some tl := by
  simp [findTitle, h]

theorem findTitle_none_of_no_open (content : List Char)
    (h : subFound titleOpenTag content = false) : findTitle content = none := by
  induction content with
  | nil => rfl
  | cons c rest ih =>
      have h2 : (titleOpenTag.isPrefixOf (c :: rest) || subFound titleOpenTag rest)
          = false := h
      rw [Bool.or_eq_false_iff] at h2
      simp [findTitle, matchTitleAt, h2.1, ih h2.2]

/-- C9 counterexample: the body `<title>a\nb</title>` has a first (and only)
title element whose trimmed text content is `a\nb`, yet `extractTitle`
returns the empty string, because the non-greedy capture `(.*?)` of the Go
regex cannot cross a newline. -/
theorem extractTitle_newline_counterexample :
    specTitleText newlineTitleBody = "a\nb"
    ∧ extractTitle newlineTitleBody = ""
    ∧ ("a\nb" : String) ≠ "" := by decide

/-- C9 (amended): the extracted page title equals the trimmed text content of
the first title element whose text contains no newline, and equals the empty
string when the body contains no `<title` occurrence at all; a title element
whose text spans a newline is not matched by the extraction regex.  Stated
here for bodies `pre ++ "<title>" ++ t ++ "</title>" ++ post` in which no
earlier tag opens (`pre` has no `<`) and the title text `t` is markup-free. -/
theorem extractTitle_first_element (content pre t post : List Char) :
    (subFound titleOpenTag content = false → extractTitle content = "")
    ∧ ((∀ c ∈ pre, c ≠ '<') → (∀ c ∈ t, c ≠ '<' ∧ c ≠ '\n') →
        extractTitle (pre ++ "<title>".data ++ t ++ "</title>".data ++ post)
          = String.mk (trimChars t)) := by
  constructor
  · intro h
    unfold extractTitle
    rw [findTitle_none_of_no_open content h]
  · intro hpre ht
    have hY : lazyCapture (t ++ (titleCloseTag ++ post)) = some t :=
      lazyCapture_clean t post ht
    have hmatch : matchTitleAt ("<title>".data ++ (t ++ (titleCloseTag ++ post)))
        = some t := by rw [matchTitleAt_open]; exact hY
    have hmatch' : matchTitleAt ('<' :: ("title>".data ++ (t ++ (titleCloseTag ++ post))))
        = some t := hmatch
    have hfind : findTitle ("<title>".data ++ (t ++ (titleCloseTag ++ post)))
        = some t :=
      findTitle_cons_some '<' ("title>".data ++ (t ++ (titleCloseTag ++ post))) t hmatch'

    have hassoc : pre ++ "<title>".data ++ t ++ "</title>".data ++ post
        = pre ++ ("<title>".data ++ (t ++ (titleCloseTag ++ post))) := by
      have hc : "</title>".data = titleCloseTag := rfl
      rw [hc]
      simp [List.append_assoc]
    unfold extractTitle
    rw [hassoc, findTitle_append_clean pre _ hpre, hfind]

/-- Witness for C9 (amended): the theorem applied at a no-title body and at a
concrete well-formed decomposition with a padded title text. -/
theorem extractTitle_first_element_witness :
    extractTitle "plain body".data = ""
    ∧ extractTitle ("ab".data ++ "<title>".data ++ " hi ".data
        ++ "</title>".data ++ "z".data) = String.mk (trimChars " hi ".data) := by
  have h := extractTitle_first_element "plain body".data "ab".data " hi ".data "z".data
  exact ⟨h.1 (by decide), h.2 (by decide) (by decide)⟩

end Squirrel

namespace Squirrel

/-! ## C2: probe scheme fallback -/

theorem checkSingleDomain_Domain (target : String) (cfg : Config) (env : ProbeEnv) :
    (checkSingleDomain target cfg env).Domain = target := by
  unfold checkSingleDomain buildSuccessResult
  split <;> rfl

theorem checkDomain_length (domain : String) (cfg : Config) (env : ProbeEnv) :
    (CheckDomain domain cfg env).length = 1 := by
  unfold CheckDomain
  split
  · rfl
  · split <;> rfl

/-- C2: For every domain given without a scheme, the probe attempts
`https://domain` first; if that transport completes (any status), the emitted
results are exactly the one HTTPS result and no HTTP fallback happens; if the
transport fails outright, exactly the one result of the single retry against
`http://domain` is emitted, and its target carries the `http://` scheme.  In
every case exactly one result is emitted per probe call. -/
theorem checkDomain_https_first (domain : String) (cfg : Config) (env : ProbeEnv) :
    (CheckDomain domain cfg env).length = 1
    ∧ (startsWithStr domain "http://" = false → startsWithStr domain "https://" = false →
        (∀ st body, env.net ("https://" ++ domain) = .success st body →
            CheckDomain domain cfg env
              = [buildSuccessResult ("https://" ++ domain) st body cfg env])
        ∧ (∀ e, env.net ("https://" ++ domain) = .failure e →
            CheckDomain domain cfg env
              = [checkSingleDomain ("http://" ++ domain) cfg env]
            ∧ ∀ r ∈ CheckDomain domain cfg env, r.Domain = "http://" ++ domain)) := by
  refine ⟨checkDomain_length domain cfg env, ?_⟩
  intro h1 h2
  constructor
  · intro st body hnet
    simp [CheckDomain, h1, h2, hnet]
  · intro e hnet
    have hc : CheckDomain domain cfg env
        = [checkSingleDomain ("http://" ++ domain) cfg env] := by
      simp [CheckDomain, h1, h2, hnet]
    refine ⟨hc, ?_⟩
    intro r hr
    rw [hc] at hr
    rw [List.mem_singleton] at hr
    rw [hr]
    exact checkSingleDomain_Domain _ _ _

/-- Witness for C2: the theorem applied at `example.com` against an
environment whose HTTPS transport refuses the connection. -/
theorem checkDomain_https_first_witness :
    (CheckDomain "example.com" cfgW envFail).length = 1
    ∧ CheckDomain "example.com" cfgW envFail
        = [checkSingleDomain "http://example.com" cfgW envFail]
    ∧ ∀ r ∈ CheckDomain "example.com" cfgW envFail,
        r.Domain = "http://example.com" := by
  have h := checkDomain_https_first "example.com" cfgW envFail
  have h2 := (h.2 (by decide) (by decide)).2 "connection refused" (by decide)
  exact ⟨h.1, h2.1, h2.2⟩

/-! ## C3: deduplication by normalised host -/

theorem mem_dedupeKeys (l : List String) (seen : List String) (k : String) :
    k ∈ dedupeKeys seen l
      ↔ (k ∉ seen ∧ ∃ d ∈ l, normKey (trimSpace d) = k) := by
  induction l generalizing seen with
  | nil => simp [dedupeKeys]
  | cons d rest ih =>
      by_cases hk : normKey (trimSpace d) ∈ seen
      · rw [show dedupeKeys seen (d :: rest) = dedupeKeys seen rest from by
          simp [dedupeKeys, hk]]
        rw [ih seen]
        constructor
        · rintro ⟨hns, d', hd', hkey⟩
          exact ⟨hns, d', List.mem_cons_of_mem _ hd', hkey⟩
        · rintro ⟨hns, d', hd', hkey⟩
          rcases List.mem_cons.mp hd' with h | h
          · subst h
            exact absurd (hkey ▸ hk) hns
          · exact ⟨hns, d', h, hkey⟩
      · rw [show dedupeKeys seen (d :: rest)
            = normKey (trimSpace d) :: dedupeKeys (normKey (trimSpace d) :: seen) rest
          from by simp [dedupeKeys, hk]]
        rw [List.mem_cons, ih (normKey (trimSpace d) :: seen)]
        constructor
        · rintro (h | ⟨hns, d', hd', hkey⟩)
          · subst h
            exact ⟨hk, d, List.mem_cons_self _ _, rfl⟩
          · exact ⟨fun hc => hns (List.mem_cons_of_mem _ hc), d',
              List.mem_cons_of_mem _ hd', hkey⟩
        · rintro ⟨hns, d', hd', hkey⟩
          by_cases hkk : k = normKey (trimSpace d)
          · exact Or.inl hkk
          · right
            refine ⟨?_, ?_⟩
            · intro hc
              rcases List.mem_cons.mp hc with h | h
              · exact hkk h
              · exact hns h
            · rcases List.mem_cons.mp hd' with h | h
              · subst h
                exact absurd hkey (fun hx => hkk hx.symm)
              · exact ⟨d', h, hkey⟩

theorem nodup_dedupeKeys (l : List String) (seen : List String) :
    (dedupeKeys seen l).Nodup ∧ ∀ k ∈ dedupeKeys seen l, k ∉ seen := by
  induction l generalizing seen with
  | nil => simp [dedupeKeys]
  | cons d rest ih =>
      by_cases hk : normKey (trimSpace d) ∈ seen
      · rw [show dedupeKeys seen (d :: rest) = dedupeKeys seen rest from by
          simp [dedupeKeys, hk]]
        exact ih seen
      · rw [show dedupeKeys seen (d :: rest)
            = normKey (trimSpace d) :: dedupeKeys (normKey (trimSpace d) :: seen) rest
          from by simp [dedupeKeys, hk]]
        obtain ⟨hnd, hmem⟩ := ih (normKey (trimSpace d) :: seen)
        constructor
        · rw [List.nodup_cons]
          exact ⟨fun hc => hmem _ hc (List.mem_cons_self _ _), hnd⟩
        · intro k hkm
          rcases List.mem_cons.mp hkm with h | h
          · subst h
            exact hk
          · exact fun hc => hmem k h (List.mem_cons_of_mem _ hc)

theorem runPipeline_length (domains : List String) (cfg : Config) (env : ProbeEnv) :
    (runPipeline domains cfg env).length = (normalizeAndDedupe domains).length := by
  unfold runPipeline
  induction normalizeAndDedupe domains with
  | nil => rfl
  | cons d rest ih =>
      simp [checkDomain_length, ih]
      omega

/-- C3: the input list is deduplicated by normalised host before entering the
pipeline — trimming each entry and replacing a scheme-qualified entry by its
bare host — and the pipeline emits exactly one result per surviving entry, so
the output result count equals the deduplicated input count; the surviving
keys are pairwise distinct and are exactly the normalised keys of the input
entries. -/
theorem pipeline_one_result_per_host (domains : List String) (cfg : Config)
    (env : ProbeEnv) :
    (runPipeline domains cfg env).length = (normalizeAndDedupe domains).length
    ∧ (normalizeAndDedupe domains).Nodup
    ∧ (∀ k, k ∈ normalizeAndDedupe domains
        ↔ ∃ d ∈ domains, normKey (trimSpace d) = k) := by
  refine ⟨runPipeline_length domains cfg env, (nodup_dedupeKeys domains []).1, ?_⟩
  intro k
  rw [normalizeAndDedupe, mem_dedupeKeys]
  simp

/-- Witness for C3: the theorem applied to a list with a duplicate under host
normalisation (`a.com` and `http://a.com/x` share the key `a.com`). -/
theorem pipeline_one_result_per_host_witness :
    (runPipeline ["a.com", "http://a.com/x", "b.com"] cfgW envFail).length
      = (normalizeAndDedupe ["a.com", "http://a.com/x", "b.com"]).length
    ∧ (normalizeAndDedupe ["a.com", "http://a.com/x", "b.com"]).Nodup
    ∧ "a.com" ∈ normalizeAndDedupe ["a.com", "http://a.com/x", "b.com"] := by
  have h := pipeline_one_result_per_host ["a.com", "http://a.com/x", "b.com"] cfgW envFail
  exact ⟨h.1, h.2.1, (h.2.2 "a.com").mpr ⟨"a.com", by decide, by decide⟩⟩

/-! ## C10: comment and blank lines in the input file -/

/-- C10: when domains are read from a file, every kept entry is the trimmed
text of some line, non-empty and not starting with `#`; a line that is empty
after trimming or whose trimmed text starts with `#` contributes nothing —
neither to the domain list nor to the pipeline results. -/
theorem readDomains_skips_comments (lines : List String) (l : String)
    (cfg : Config) (env : ProbeEnv) :
    (∀ d ∈ readDomainsFromLines lines,
        ∃ l' ∈ lines, trimSpace l' = d ∧ d ≠ "" ∧ startsWithStr d "#" = false)
    ∧ (trimSpace l = "" ∨ startsWithStr (trimSpace l) "#" = true →
        readDomainsFromLines (l :: lines) = readDomainsFromLines lines
        ∧ runFromFile (l :: lines) cfg env = runFromFile lines cfg env) := by
  constructor
  · intro d hd
    rw [readDomainsFromLines, List.mem_filterMap] at hd
    obtain ⟨l', hl', hf⟩ := hd
    by_cases hc : (trimSpace l' != "" && !(startsWithStr (trimSpace l') "#")) = true
    · rw [if_pos hc] at hf
      injection hf with hf
      rw [Bool.and_eq_true, bne_iff_ne, Bool.not_eq_true'] at hc
      exact ⟨l', hl', hf, hf ▸ hc.1, hf ▸ hc.2⟩
    · rw [if_neg hc] at hf
      cases hf
  · intro h
    have hcond : (trimSpace l != "" && !(startsWithStr (trimSpace l) "#")) = false := by
      rcases h with h | h
      · simp [h]
      · simp [h]
    have hskip : readDomainsFromLines (l :: lines) = readDomainsFromLines lines := by
      simp only [readDomainsFromLines, List.filterMap_cons, hcond]
      rw [if_neg (by simp [hcond])]
    exact ⟨hskip, by unfold runFromFile; rw [hskip]⟩

/-- Witness for C10: the theorem applied to the comment line `# x` in front
of a one-domain file. -/
theorem readDomains_skips_comments_witness :
    readDomainsFromLines ["# x", "a.com"] = readDomainsFromLines ["a.com"]
    ∧ runFromFile ["# x", "a.com"] cfgW envFail = runFromFile ["a.com"] cfgW envFail := by
  have h := readDomains_skips_comments ["a.com"] "# x" cfgW envFail
  exact h.2 (Or.inr (by decide))

end Squirrel

namespace Squirrel

/-! ## C4: bounded, non-blocking Submit -/

theorem stopStep_closed (s : PoolState) : (stopStep s).closed = true := by
  unfold stopStep
  split
  · assumption
  · rfl

theorem stopStep_frame (s : PoolState) :
    (stopStep s).replyWrites = s.replyWrites
    ∧ (stopStep s).nextReply = s.nextReply
    ∧ (stopStep s).queue = s.queue := by
  unfold stopStep
  split <;> exact ⟨rfl, rfl, rfl⟩

/-- C4: `Submit` never blocks the caller beyond its bounded wait: on a closed
pool the returned future is already resolved to the empty string and nothing
is enqueued; on a full queue the bounded wait expires, the submission is
abandoned and the future resolves to the empty string; only a free queue slot
enqueues the task (future unresolved, to be written by a worker); and a
submit after `stop` observes the closed pool and resolves empty instead of
panicking. -/
theorem submit_nonblocking (s : PoolState)
    (hfresh : s.replyWrites s.nextReply = []) :
    (s.closed = true →
        (submitStep s).1.replyWrites s.nextReply = [""]
        ∧ (submitStep s).1.queue = s.queue)
    ∧ (s.closed = false → s.capacity ≤ s.queue.length →
        (submitStep s).1.replyWrites s.nextReply = [""]
        ∧ (submitStep s).1.queue = s.queue)
    ∧ (s.closed = false → s.queue.length < s.capacity →
        (submitStep s).1.replyWrites s.nextReply = []
        ∧ (submitStep s).1.queue = s.queue ++ [s.nextReply])
    ∧ ((stopStep s).closed = true
        ∧ (submitStep (stopStep s)).1.replyWrites s.nextReply = [""]
        ∧ (submitStep (stopStep s)).1.queue = s.queue) := by
  obtain ⟨hw, hn, hq⟩ := stopStep_frame s
  refine ⟨?_, ?_, ?_, stopStep_closed s, ?_, ?_⟩
  · intro hcl
    simp [submitStep, hcl, hfresh]
  · intro hcl hfull
    have hnl : ¬ s.queue.length < s.capacity := by omega
    simp [submitStep, hcl, hnl, hfresh]
  · intro hcl hlt
    simp [submitStep, hcl, hlt, hfresh]
  · simp [submitStep, stopStep_closed s, hn, hw, hfresh]
  · simp [submitStep, stopStep_closed s, hq]

/-- Witness for C4: the theorem applied to a fresh zero-capacity pool (queue
full immediately) and to the same pool after `stop`. -/
theorem submit_nonblocking_witness :
    ((submitStep (NewScreenshotPool 0)).1.replyWrites 0 = [""]
      ∧ (submitStep (NewScreenshotPool 0)).1.queue = [])
    ∧ ((submitStep (NewScreenshotPool 1)).1.replyWrites 0 = []
      ∧ (submitStep (NewScreenshotPool 1)).1.queue = [0])
    ∧ (stopStep (NewScreenshotPool 0)).closed = true
    ∧ (submitStep (stopStep (NewScreenshotPool 0))).1.replyWrites 0 = [""] := by
  have h0 := submit_nonblocking (NewScreenshotPool 0) rfl
  have h1 := submit_nonblocking (NewScreenshotPool 1) rfl
  exact ⟨h0.2.1 rfl (by decide), h1.2.2.1 rfl (by decide), h0.2.2.2.1, h0.2.2.2.2.1⟩

/-! ## C5: one-shot reply channels -/

theorem poolInv_init (workers : Nat) : PoolInv (NewScreenshotPool workers) := by
  refine ⟨?_, ?_, ?_, ?_⟩ <;> simp [NewScreenshotPool, writes, pending]

theorem count_eq_zero_of_lt_bound {l : List Nat} {n i : Nat}
    (hb : ∀ j ∈ l, j < n) (hi : n ≤ i) : l.count i = 0 := by
  rw [List.count_eq_zero]
  intro hc
  exact absurd (hb i hc) (by omega)

theorem poolInv_step (s : PoolState) (e : PEvent) (h : PoolInv s) :
    PoolInv (stepEv s e) := by
  obtain ⟨hq, hf, hone, hfresh⟩ := h
  simp only [writes, pending] at hone
  cases e with
  | submit =>
      show PoolInv (submitStep s).1
      have hresolve : PoolInv
          { s with
              replyWrites := Function.update s.replyWrites s.nextReply
                (s.replyWrites s.nextReply ++ [""])
              nextReply := s.nextReply + 1 } := by
        refine ⟨?_, ?_, ?_, ?_⟩
        · intro i hi
          show i < s.nextReply + 1
          have := hq i hi
          omega
        · intro i hi
          show i < s.nextReply + 1
          have := hf i hi
          omega
        · intro i hi
          have hi' : i < s.nextReply + 1 := hi
          show (Function.update s.replyWrites s.nextReply
              (s.replyWrites s.nextReply ++ [""]) i).length
              + (s.queue.count i + s.inFlight.count i) = 1
          rcases Nat.lt_or_ge i s.nextReply with hlt | hge
          · rw [Function.update_noteq (by omega)]
            exact hone i hlt
          · have hieq : i = s.nextReply := by omega
            rw [hieq, Function.update_same, hfresh s.nextReply (le_refl _),
              count_eq_zero_of_lt_bound hq (le_refl _),
              count_eq_zero_of_lt_bound hf (le_refl _)]
            simp
        · intro i hi
          have hi' : s.nextReply + 1 ≤ i := hi
          show Function.update s.replyWrites s.nextReply
              (s.replyWrites s.nextReply ++ [""]) i = []
          rw [Function.update_noteq (by omega)]
          exact hfresh i (by omega)
      simp only [submitStep]
      by_cases hcl : s.closed
      · rw [if_pos hcl]
        exact hresolve
      · rw [if_neg hcl]
        by_cases hlt : s.queue.length < s.capacity
        · rw [if_pos hlt]
          refine ⟨?_, ?_, ?_, ?_⟩
          · intro i hi
            show i < s.nextReply + 1
            have hi' : i ∈ s.queue ++ [s.nextReply] := hi
            rcases List.mem_append.mp hi' with h1 | h1
            · have := hq i h1
              omega
            · rw [List.mem_singleton] at h1
              omega
          · intro i hi
            show i < s.nextReply + 1
            have := hf i hi
            omega
          · intro i hi
            have hi' : i < s.nextReply + 1 := hi
            show (s.replyWrites i).length
                + ((s.queue ++ [s.nextReply]).count i + s.inFlight.count i) = 1
            rw [List.count_append]
            rcases Nat.lt_or_ge i s.nextReply with h1 | h1
            · have hc0 : [s.nextReply].count i = 0 := by
                rw [List.count_eq_zero]
                intro hc
                rw [List.mem_singleton] at hc
                omega
              have := hone i h1
              omega
            · have hieq : i = s.nextReply := by omega
              rw [hieq, hfresh s.nextReply (le_refl _),
                count_eq_zero_of_lt_bound hq (le_refl _),
                count_eq_zero_of_lt_bound hf (le_refl _)]
              simp
          · intro i hi
            have hi' : s.nextReply + 1 ≤ i := hi
            show s.replyWrites i = []
            exact hfresh i (by omega)
        · rw [if_neg hlt]
          exact hresolve
  | take =>
      show PoolInv (takeStep s)
      rcases hqq : s.queue with _ | ⟨j, rest⟩
      · have ht : takeStep s = s := by
          unfold takeStep
          rw [hqq]
        rw [ht]
        exact ⟨hq, hf, hone, hfresh⟩
      · have ht : takeStep s = { s with queue := rest, inFlight := s.inFlight ++ [j] } := by
          unfold takeStep
          rw [hqq]
        rw [ht]
        have hj : j < s.nextReply := hq j (by rw [hqq]; exact List.mem_cons_self _ _)
        refine ⟨?_, ?_, ?_, ?_⟩
        · intro i hi
          show i < s.nextReply
          exact hq i (by rw [hqq]; exact List.mem_cons_of_mem _ hi)
        · intro i hi
          show i < s.nextReply
          have hi' : i ∈ s.inFlight ++ [j] := hi
          rcases List.mem_append.mp hi' with h1 | h1
          · exact hf i h1
          · rw [List.mem_singleton] at h1
            subst h1
            exact hj
        · intro i hi
          have hi' : i < s.nextReply := hi
          show (s.replyWrites i).length
              + (rest.count i + (s.inFlight ++ [j]).count i) = 1
          have h1 := hone i hi'
          rw [hqq] at h1
          rw [List.count_append]
          simp only [List.count_cons, List.count_singleton', List.count_nil,
            beq_iff_eq] at h1 ⊢
          split_ifs at h1 ⊢ <;> omega
        · intro i hi
          exact hfresh i hi
  | finish j v =>
      show PoolInv (finishStep s j v)
      unfold finishStep
      by_cases hj : j ∈ s.inFlight
      · rw [if_pos hj]
        have hjn : j < s.nextReply := hf j hj
        refine ⟨?_, ?_, ?_, ?_⟩
        · intro i hi
          exact hq i hi
        · intro i hi
          have hi' : i ∈ s.inFlight.erase j := hi
          show i < s.nextReply
          exact hf i (List.mem_of_mem_erase hi')
        · intro i hi
          have hi' : i < s.nextReply := hi
          show (Function.update s.replyWrites j (s.replyWrites j ++ [v]) i).length
              + (s.queue.count i + (s.inFlight.erase j).count i) = 1
          have h1 := hone i hi'
          rcases eq_or_ne i j with hij | hij
          · subst hij
            rw [Function.update_same, List.count_erase_self, List.length_append]
            have hcnt : 0 < s.inFlight.count i := List.count_pos_iff.mpr hj
            simp only [List.length_cons, List.length_nil]
            omega
          · rw [Function.update_noteq hij, List.count_erase_of_ne hij]
            exact h1
        · intro i hi
          have hi' : s.nextReply ≤ i := hi
          show Function.update s.replyWrites j (s.replyWrites j ++ [v]) i = []
          rw [Function.update_noteq (by omega : i ≠ j)]
          exact hfresh i hi'
      · rw [if_neg hj]
        exact ⟨hq, hf, hone, hfresh⟩
  | stop =>
      show PoolInv (stopStep s)
      unfold stopStep
      split
      · exact ⟨hq, hf, hone, hfresh⟩
      · exact ⟨hq, hf, hone, hfresh⟩

theorem poolInv_run (workers : Nat) (evs : List PEvent) :
    PoolInv (runEvents workers evs) := by
  have hgen : ∀ (l : List PEvent) (s : PoolState), PoolInv s → PoolInv (l.foldl stepEv s) := by
    intro l
    induction l with
    | nil => exact fun s hs => hs
    | cons e rest ih => exact fun s hs => ih (stepEv s e) (poolInv_step s e hs)
  exact hgen evs _ (poolInv_init workers)

/-- C5: along every event trace of the pool, each reply channel created by a
submit is written exactly once in total: while the task is still queued or
held by a worker the channel is untouched and exactly one live task record
holds it, and once neither the queue nor any worker holds a task (the drained
pool), every allocated reply channel carries exactly one written value —
never zero, never two. -/
theorem reply_channel_one_shot (workers : Nat) (evs : List PEvent) :
    (∀ i, i < (runEvents workers evs).nextReply →
        writes (runEvents workers evs) i + pending (runEvents workers evs) i = 1)
    ∧ ((runEvents workers evs).queue = [] → (runEvents workers evs).inFlight = [] →
        ∀ i, i < (runEvents workers evs).nextReply → writes (runEvents workers evs) i = 1) := by
  obtain ⟨hq, hf, hone, hfresh⟩ := poolInv_run workers evs
  refine ⟨hone, ?_⟩
  intro hq0 hf0 i hi
  have h1 := hone i hi
  unfold pending at h1
  rw [hq0, hf0] at h1
  simpa using h1

/-- Witness for C5: the theorem applied to a one-worker pool trace that
submits, hands the task to the worker, and finishes it; the single reply
channel holds exactly one value. -/
theorem reply_channel_one_shot_witness :
    writes (runEvents 1 [PEvent.submit, PEvent.take, PEvent.finish 0 "shot.png"]) 0
        + pending (runEvents 1 [PEvent.submit, PEvent.take, PEvent.finish 0 "shot.png"]) 0 = 1
    ∧ writes (runEvents 1 [PEvent.submit, PEvent.take, PEvent.finish 0 "shot.png"]) 0 = 1 := by
  have h := reply_channel_one_shot 1 [PEvent.submit, PEvent.take, PEvent.finish 0 "shot.png"]
  exact ⟨h.1 0 (by decide), h.2 (by decide) (by decide) 0 (by decide)⟩

/-! ## C6: Stop is idempotent and the drain terminates -/

/-- C6: calling `Stop` twice neither panics nor hangs: the first call leaves
the pool closed, the second call observes the closed flag, changes nothing
and in particular does not close the task channel again (`closeCount` is
unchanged — a double `close` would panic in Go); and every worker step taken
while `Stop` waits on the `WaitGroup` strictly decreases the drain measure,
so the wait terminates once the queued and held tasks are finished. -/
theorem stop_twice_safe (s : PoolState) :
    (stopStep s).closed = true
    ∧ stopStep (stopStep s) = stopStep s
    ∧ (stopStep (stopStep s)).closeCount = (stopStep s).closeCount
    ∧ (s.closed = false → (stopStep s).closeCount = s.closeCount + 1)
    ∧ (∀ u t, WStep u t → wMeasure t < wMeasure u) := by
  have hstable : ∀ t : PoolState, t.closed = true → stopStep t = t := by
    intro t ht
    unfold stopStep
    rw [if_pos ht]
  have hidem : stopStep (stopStep s) = stopStep s := hstable _ (stopStep_closed s)
  refine ⟨stopStep_closed s, hidem, by rw [hidem], ?_, ?_⟩
  · intro hcl
    unfold stopStep
    rw [if_neg (by rw [hcl]; exact Bool.false_ne_true)]
  · intro u t hstep
    cases hstep with
    | take h =>
        rcases hqq : u.queue with _ | ⟨j, rest⟩
        · exact absurd hqq h
        · have ht : takeStep u = { u with queue := rest, inFlight := u.inFlight ++ [j] } := by
            unfold takeStep
            rw [hqq]
          rw [ht]
          show 2 * rest.length + (u.inFlight ++ [j]).length < wMeasure u
          unfold wMeasure
          rw [hqq]
          simp only [List.length_append, List.length_cons, List.length_nil]
          omega
    | finish i v h =>
        have hf : finishStep u i v
            = { u with
                inFlight := u.inFlight.erase i
                replyWrites := Function.update u.replyWrites i (u.replyWrites i ++ [v]) } := by
          unfold finishStep
          rw [if_pos h]
        rw [hf]
        show 2 * u.queue.length + (u.inFlight.erase i).length < wMeasure u
        unfold wMeasure
        rw [List.length_erase_of_mem h]
        have := List.length_pos_of_mem h
        omega

/-- Witness for C6: the theorem applied to a fresh one-worker pool, with the
measure decrease instantiated at a take step from a pool holding one queued
task. -/
theorem stop_twice_safe_witness :
    (stopStep (NewScreenshotPool 1)).closed = true
    ∧ stopStep (stopStep (NewScreenshotPool 1)) = stopStep (NewScreenshotPool 1)
    ∧ (stopStep (stopStep (NewScreenshotPool 1))).closeCount
        = (stopStep (NewScreenshotPool 1)).closeCount
    ∧ wMeasure (takeStep poolOneQueued) < wMeasure poolOneQueued := by
  have h := stop_twice_safe (NewScreenshotPool 1)
  exact ⟨h.1, h.2.1, h.2.2.1,
    h.2.2.2.2 poolOneQueued (takeStep poolOneQueued)
      (WStep.take poolOneQueued (by decide))⟩

/-! ## C7: soft and hard render failures -/

/-- C7: a render attempt whose `chromedp.Run` error is a recognised
network-level error is a soft failure: `TakeScreenshotIndependent` generates
the network-error placeholder image and reports success, so the worker loop
replies with the artifact path on that very attempt and counts it a success;
a task whose every attempt fails with an unrecognised error is retried
exactly `maxRetries = 3` times with linearly increasing backoff of
`retry * 500` ms (500, 1000, 1500) and is then recorded as a hard failure:
the reply is the empty string and no artifact is produced. -/
theorem render_soft_and_hard_failures (envA envB : AttemptEnv) (path : List Char) :
    (∀ e, envA.runErr 0 = some e → envA.bufNonempty 0 = false → isNetworkErr e = true →
        runTask envA path = (path, true, [])
        ∧ attemptResult envA 0 = Except.ok ShotArtifact.netErrorImage)
    ∧ ((∀ r, r ≤ maxRetries →
          ∃ e, attemptResult envB r = Except.error e ∧ isNetworkErr e = false) →
        runTask envB path = ([], false, [backoffMs 1, backoffMs 2, backoffMs 3])
        ∧ [backoffMs 1, backoffMs 2, backoffMs 3] = [500, 1000, 1500]) := by
  constructor
  · intro e he hb hnet
    have ha : attemptResult envA 0 = Except.ok ShotArtifact.netErrorImage := by
      simp [attemptResult, he, hb, takeScreenshotIndependent, hnet]
    constructor
    · simp [runTask, maxRetries, retryLoop, ha]
    · exact ha
  · intro hall
    obtain ⟨e0, he0, hn0⟩ := hall 0 (by simp [maxRetries])
    obtain ⟨e1, he1, hn1⟩ := hall 1 (by simp [maxRetries])
    obtain ⟨e2, he2, hn2⟩ := hall 2 (by simp [maxRetries])
    obtain ⟨e3, he3, hn3⟩ := hall 3 (by simp [maxRetries])
    constructor
    · simp [runTask, maxRetries, retryLoop, he0, he1, he2, he3, hn3, backoffMs]
    · simp [backoffMs]

/-- Witness for C7: the theorem applied to an oracle that times out at the
network level (soft failure, placeholder artifact) and an oracle that always
crashes with an unrecognised error (hard failure after three backoffs). -/
theorem render_soft_and_hard_failures_witness :
    (runTask envSoft "s.png".data = ("s.png".data, true, [])
      ∧ attemptResult envSoft 0 = Except.ok ShotArtifact.netErrorImage)
    ∧ (runTask envHard "s.png".data = ([], false, [backoffMs 1, backoffMs 2, backoffMs 3])
      ∧ [backoffMs 1, backoffMs 2, backoffMs 3] = [500, 1000, 1500]) := by
  have h := render_soft_and_hard_failures envSoft envHard "s.png".data
  exact ⟨h.1 "net::ERR_TIMED_OUT".data rfl rfl (by decide),
    h.2 (fun r hr => ⟨"截图失败: chrome crashed".data, rfl, by decide⟩)⟩

end Squirrel
